import Mathlib

/-!
Shallow embedding of the subprocess runner of `baz_subprocess.py`
(classes `baz_subprocess` and `baz_streamreader`).

Modelling conventions:
* A byte line read from a pipe is a `List Nat` (`ByteLine`); Python `None` is
  `Option.none`; Python byte-string truthiness (`b''` is falsy) is `truthyLine`.
* The codecs module is an oracle `decode : String → ByteLine → DecodeResult`;
  `bytes.decode(None)` (which raises `TypeError`) is `decodeAttempt _ _ none`.
* The logger is a sink: `getattr(logger, name)` resolves iff `hasMethod name`;
  a successful call appends `(name, message)` to the event list.  The direct
  calls `logger.error` / `logger.warning` made by the source always succeed
  (a `logging.Logger` always has these methods).
* The operating system is a `World`: the inherited environment, the value of
  `sys.stdout.encoding`, the codec oracle, and what `subprocess.Popen` does
  for a given call (`SpawnOutcome`): raise, or produce a child whose
  observable behaviour is a `Schedule` — per polling-loop iteration `i`, the
  result of `readline()` on each drainer queue and of `process.poll()`.
* The `while True` polling loop is run on explicit fuel (`popenLoop`); running
  out of fuel is the model artifact `LoopOut.spin` / `PopenResult.spin`.
-/

namespace BazSubprocess

abbrev ByteLine := List Nat

/-- A log event: (logger method name that was called, message). -/
abbrev LogEvent := String × String

/-- Result of one `byte.decode(i)` attempt inside `try_decode`:
success, a `UnicodeDecodeError` (the only exception the source catches),
or any other exception (e.g. `TypeError` when the encoding is `None`). -/
inductive DecodeResult where
  | ok (s : String)
  | unicodeError
  | otherError (msg : String)
deriving DecidableEq

/-- The default encoding list of `try_decode` (lines 201-214 of the source):
`[sys.stdout.encoding, 'utf8', 'cp1252', 'latin_1', 'cp1251', 'cp1250',
'cp1256', 'euc_kr', 'euc_jp', 'GB2312', 'utf16', 'utf32']`.
`sys.stdout.encoding` may be Python `None`, hence `Option String` entries. -/
def encodingList (sysStdoutEncoding : Option String) : List (Option String) :=
  [sysStdoutEncoding, some "utf8", some "cp1252", some "latin_1", some "cp1251",
   some "cp1250", some "cp1256", some "euc_kr", some "euc_jp", some "GB2312",
   some "utf16", some "utf32"]

/-- `byte.decode(i)` for one candidate `i` of the encoding list:
`bytes.decode(None)` raises `TypeError` (not a `UnicodeDecodeError`). -/
def decodeAttempt (decode : String → ByteLine → DecodeResult) (b : ByteLine) :
    Option String → DecodeResult
  | none => .otherError "TypeError: decode(None)"
  | some e => decode e b

/-- The `for i in encoding` loop of `try_decode` (lines 216-225).
State threaded exactly as in the source: `retVal` is `return_value`
(initially `''`), `errVal` is `error_value ≠ None`.  A success stores the
decoded text, clears `error_value` and breaks; a `UnicodeDecodeError` sets
`error_value`; any other exception propagates (`Except.error`). -/
def tryDecodeLoop (att : Option String → DecodeResult) :
    List (Option String) → String → Bool → Except String (String × Bool)
  | [], retVal, errVal => .ok (retVal, errVal)
  | e :: rest, retVal, _errVal =>
    match att e with
    | .ok s => .ok (s, false)
    | .unicodeError => tryDecodeLoop att rest retVal true
    | .otherError msg => .error msg

/-- `baz_subprocess.try_decode` (lines 179-230).  Returns the decoded text and
whether `self.logger.warning('Valeur non décodée')` fired (it fires iff
`error_value` is still set after the loop); an exception other than
`UnicodeDecodeError` propagates to the caller. -/
def try_decode (decode : String → ByteLine → DecodeResult)
    (sysStdoutEncoding : Option String) (b : ByteLine)
    (encoding : Option (List (Option String))) : Except String (String × Bool) :=
  let encs := encoding.getD (encodingList sysStdoutEncoding)
  tryDecodeLoop (decodeAttempt decode b) encs "" false

/-- The whitespace set stripped by Python `str.strip()` (ASCII fragment). -/
def isPySpace (c : Char) : Bool :=
  c = ' ' || c = '\t' || c = '\n' || c = '\r' || c = '\x0b' || c = '\x0c'

/-- Python `str.strip()`: removes leading AND trailing whitespace. -/
def pyStrip (s : String) : String :=
  ⟨((s.toList.dropWhile isPySpace).reverse.dropWhile isPySpace).reverse⟩

/-- Modelled from the claim's words (not from the source, for comparison with
`pyStrip`): trim only the trailing line terminators of a decoded line. -/
def stripTrailingTerminators (s : String) : String :=
  ⟨(s.toList.reverse.dropWhile (fun c => c = '\n' || c = '\r')).reverse⟩

/-- The runner's configuration, fixed at construction (`__init__`, lines
53-76): the two severity names and which names `getattr(self.logger, ·)`
resolves on the sink. -/
structure RunnerCfg where
  stdout_level : String
  stderr_level : String
  hasMethod : String → Bool

/-- `baz_subprocess.__init__` defaulting (lines 74-76): `stdout_level`
defaults to `'debug'`, `stderr_level` to `'error'`. -/
def mkRunner (hasMethod : String → Bool)
    (stdout_level stderr_level : Option String) : RunnerCfg :=
  { stdout_level := stdout_level.getD "debug"
    stderr_level := stderr_level.getD "error"
    hasMethod := hasMethod }

inductive Redirect where
  | pipe
  | inherit
deriving DecidableEq

/-- The arguments `popen` hands to `subprocess.Popen` (lines 124-132). -/
structure SpawnCall where
  args : List String
  stdin : Redirect
  stdout : Redirect
  stderr : Redirect
  shell : Bool
  env : String → Option String

/-- `var_env = dict(os.environ); var_env.update(env_var_perso)`
(lines 114-118): overridden names take the override value, all other names
pass through from the inherited environment. -/
def mergedEnv (environ : String → Option String)
    (overrides : List (String × String)) (k : String) : Option String :=
  match overrides.lookup k with
  | some v => some v
  | none => environ k

/-- The `subprocess.Popen` call built by `popen` (lines 113-132): argument
vector as given, the three standard streams redirected to pipes,
`shell=False`, and the merged environment.  A `None` or empty
`env_var_perso` leaves the environment untouched (`if env_var_perso:`),
which coincides with merging the empty list. -/
def popenSpawnCall (environ : String → Option String) (args : List String)
    (env_var_perso : Option (List (String × String))) : SpawnCall :=
  { args := args
    stdin := .pipe
    stdout := .pipe
    stderr := .pipe
    shell := false
    env := mergedEnv environ (env_var_perso.getD []) }

/-- Observable behaviour of a successfully spawned child, per polling-loop
iteration `i`: the line (if any) each drainer's `readline()` yields, and the
result of the non-blocking `process.poll()`. -/
structure Schedule where
  stdoutLine : Nat → Option ByteLine
  stderrLine : Nat → Option ByteLine
  poll : Nat → Option Int

/-- What `subprocess.Popen` does for a call: raise (executable not found,
permission denied, ...) or spawn a child behaving as `sched`. -/
inductive SpawnOutcome where
  | fail (msg : String)
  | ok (sched : Schedule)

/-- The ambient state a `popen` invocation runs in. -/
structure World where
  environ : String → Option String
  sysStdoutEncoding : Option String
  decode : String → ByteLine → DecodeResult
  spawn : SpawnCall → SpawnOutcome

/-- Python truthiness of a `readline()` result: `None` and `b''` are falsy. -/
def truthyLine : Option ByteLine → Bool
  | none => false
  | some l => !l.isEmpty

/-- One `if output_xxx: getattr(self.logger, level)(self.try_decode(...).strip())`
block of the polling loop (lines 146-153).  Evaluation order as in Python:
the `getattr` is resolved first (an unknown severity name raises
`AttributeError`), then `try_decode` runs (its internal warning, if any, is
logged before the severity call receives the stripped message), then the
severity call logs.  `Except.error` carries the exception message and the
events already logged. -/
def dispatchLine (cfg : RunnerCfg) (w : World) (level : String)
    (oline : Option ByteLine) (acc : List LogEvent) :
    Except (String × List LogEvent) (List LogEvent) :=
  match oline with
  | none => .ok acc
  | some l =>
    if l.isEmpty then .ok acc
    else if cfg.hasMethod level then
      match try_decode w.decode w.sysStdoutEncoding l none with
      | .error msg => .error (msg, acc)
      | .ok (s, warned) =>
        let acc1 := if warned then acc ++ [("warning", "Valeur non décodée")] else acc
        .ok (acc1 ++ [(level, pyStrip s)])
    else .error ("AttributeError: " ++ level, acc)

/-- Outcome of the polling loop: `broke n rc log` — the `break` on line 162
fired at iteration `n` with `return_code = rc`; `exc` — an exception escaped
the loop body (to be caught by `popen`'s handler); `spin` — fuel ran out
(model artifact for a loop still running). -/
inductive LoopOut where
  | broke (n : Nat) (rc : Int) (log : List LogEvent)
  | exc (msg : String) (log : List LogEvent)
  | spin (log : List LogEvent)

/-- The `while True` polling loop of `popen` (lines 139-162), on fuel.
Each iteration takes one line from each drainer, dispatches the truthy ones,
polls, and breaks exactly when the status is known and this iteration got
neither a stdout nor a stderr line. -/
def popenLoop (cfg : RunnerCfg) (w : World) (sched : Schedule) :
    Nat → Nat → List LogEvent → LoopOut
  | 0, _, acc => .spin acc
  | fuel + 1, i, acc =>
    let oOut := sched.stdoutLine i
    let oErr := sched.stderrLine i
    match dispatchLine cfg w cfg.stdout_level oOut acc with
    | .error (msg, log) => .exc msg log
    | .ok acc1 =>
      match dispatchLine cfg w cfg.stderr_level oErr acc1 with
      | .error (msg, log) => .exc msg log
      | .ok acc2 =>
        match sched.poll i with
        | some rc =>
          if truthyLine oOut || truthyLine oErr then
            popenLoop cfg w sched fuel (i + 1) acc2
          else
            .broke i rc acc2
        | none => popenLoop cfg w sched fuel (i + 1) acc2

/-- What the `popen` call evaluates to: `retTrue` / `retFalse` are the
explicit `return True` / `return False`; `retNone` is falling off the end of
the function after the `except` handler (Python returns `None`);
`uncaught msg` is an exception escaping `popen` itself (only possible from
the `else:` clause, which sits outside the `try`); `spin` is the fuel
artifact. -/
inductive PopenResult where
  | retTrue
  | retFalse
  | retNone
  | uncaught (msg : String)
  | spin
deriving DecidableEq

/-- `self.logger.error("La commande était : " + (' '.join(map(str, args))))`
(line 172): the reconstructed command line. -/
def cmdLineMsg (args : List String) : String :=
  "La commande était : " ++ String.intercalate " " args

def successMsg : String := "Le processus s'est terminé avec succès."

def failureMsg : String := "Le processus s'est terminé avec une erreur."

/-- `baz_subprocess.popen` (lines 82-177).  Returns the Python return value
and the ordered list of log events.  Structure mirrors the source:
`out_encoding` is normalised on line 109 and then never used; the
environment is merged and `subprocess.Popen` invoked; on spawn failure the
`except` handler logs the exception and the command line and the function
falls off the end (`retNone`).  Otherwise the polling loop runs; a loop
exception reaches the same handler (`retNone`); on `break`, exit status `0`
logs the success message at the stdout severity inside the `try` and returns
`True` (a failing `getattr` there is still caught → `retNone`), while a
non-zero status runs the `else:` clause outside the `try`, logging the
failure message at the stderr severity and returning `False` (a failing
`getattr` there escapes `popen`: `uncaught`). -/
def popen (cfg : RunnerCfg) (w : World) (fuel : Nat) (args : List String)
    (env_var_perso : Option (List (String × String)))
    (out_encoding : Option String) : PopenResult × List LogEvent :=
  let _out_encoding : Option String :=
    match out_encoding with
    | some e => some e
    | none => w.sysStdoutEncoding
  match w.spawn (popenSpawnCall w.environ args env_var_perso) with
  | .fail msg =>
    (.retNone, [("error", msg), ("error", cmdLineMsg args)])
  | .ok sched =>
    match popenLoop cfg w sched fuel 0 [] with
    | .spin log => (.spin, log)
    | .exc msg log =>
      (.retNone, log ++ [("error", msg), ("error", cmdLineMsg args)])
    | .broke _ rc log =>
      if rc = 0 then
        if cfg.hasMethod cfg.stdout_level then
          (.retTrue, log ++ [(cfg.stdout_level, successMsg)])
        else
          (.retNone, log ++ [("error", "AttributeError: " ++ cfg.stdout_level),
                             ("error", cmdLineMsg args)])
      else
        if cfg.hasMethod cfg.stderr_level then
          (.retFalse, log ++ [(cfg.stderr_level, failureMsg)])
        else
          (.uncaught ("AttributeError: " ++ cfg.stderr_level), log)

/-- `self.queue.get(block = timeout is not None, timeout = timeout)`
(lines 310-313).  The queue is its list of pending lines; `arrival` is the
oracle for a line the producer makes available before the deadline when the
call blocks.  `emptyExc` is the `queue.Empty` exception. -/
inductive QueueGetResult where
  | got (l : ByteLine) (rest : List ByteLine)
  | emptyExc (rest : List ByteLine)
deriving DecidableEq

def queueGet (q : List ByteLine) (block : Bool) (arrival : Option ByteLine) :
    QueueGetResult :=
  match q with
  | l :: rest => .got l rest
  | [] =>
    if block then
      match arrival with
      | some l => .got l []
      | none => .emptyExc []
    else .emptyExc []

/-- `baz_streamreader.readline` (lines 293-316): `get` with
`block = timeout is not None`; `queue.Empty` is caught and `None` returned.
Result: (value returned to the caller, remaining queue). -/
def readline (q : List ByteLine) (timeout : Option Nat)
    (arrival : Option ByteLine) : Option ByteLine × List ByteLine :=
  match queueGet q timeout.isSome arrival with
  | .got l rest => (some l, rest)
  | .emptyExc rest => (none, rest)

/-- One iteration of `populateQueue`'s `while True` body (lines 267-274):
`line = stream.readline(); if line: queue.put(line)`.  The body contains no
`break` and no `return`, so the second component — "this iteration exits the
loop" — is constantly `false`: an empty read (end-of-stream) is merely
skipped and the loop continues. -/
def populateQueue_body (line : ByteLine) (q : List ByteLine) :
    List ByteLine × Bool :=
  (if line.isEmpty then q else q ++ [line], false)

/-- Running `populateQueue` for `steps` iterations over a stream modelled as
the sequence of `stream.readline()` results (`[]` = end-of-stream). -/
def populateQueue_run (stream : Nat → ByteLine) (steps : Nat) : List ByteLine :=
  (List.range steps).foldl (fun q k => (populateQueue_body (stream k) q).1) []

/-- The loop-break condition of line 157-161:
`return_code != None and not output_stdout and not output_stderr`. -/
def breakCondB (sched : Schedule) (i : Nat) : Bool :=
  (sched.poll i).isSome && !truthyLine (sched.stdoutLine i)
    && !truthyLine (sched.stderrLine i)

/-! ### Helper lemmas -/

/-- Unfolding of one polling-loop iteration. -/
theorem popenLoop_succ (cfg : RunnerCfg) (w : World) (sched : Schedule)
    (fuel i : Nat) (acc : List LogEvent) :
    popenLoop cfg w sched (fuel + 1) i acc =
      match dispatchLine cfg w cfg.stdout_level (sched.stdoutLine i) acc with
      | .error (msg, log) => .exc msg log
      | .ok acc1 =>
        match dispatchLine cfg w cfg.stderr_level (sched.stderrLine i) acc1 with
        | .error (msg, log) => .exc msg log
        | .ok acc2 =>
          match sched.poll i with
          | some rc =>
            if truthyLine (sched.stdoutLine i) || truthyLine (sched.stderrLine i) then
              popenLoop cfg w sched fuel (i + 1) acc2
            else
              .broke i rc acc2
          | none => popenLoop cfg w sched fuel (i + 1) acc2 := rfl

/-- In the `for i in encoding` loop, the first successful decode wins and
clears the pending-error flag, whatever failed before it. -/
theorem tryDecodeLoop_first_ok (att : Option String → DecodeResult) (s : String) :
    ∀ (pre : List (Option String)) (post : List (Option String))
      (e0 : Option String) (rv : String) (ev : Bool),
      (∀ e ∈ pre, att e = .unicodeError) → att e0 = .ok s →
      tryDecodeLoop att (pre ++ e0 :: post) rv ev = .ok (s, false) := by
  intro pre
  induction pre with
  | nil =>
    intro post e0 rv ev _ hok
    simp [tryDecodeLoop, hok]
  | cons p pre ih =>
    intro post e0 rv ev hpre hok
    have hp : att p = .unicodeError := hpre p (List.mem_cons_self p pre)
    simp only [List.cons_append, tryDecodeLoop, hp]
    exact ih post e0 rv true (fun e he => hpre e (List.mem_cons_of_mem p he)) hok

/-- If every candidate raises `UnicodeDecodeError`, the loop leaves
`return_value` untouched and the error flag set (when it ran at all). -/
theorem tryDecodeLoop_all_fail (att : Option String → DecodeResult) :
    ∀ (encs : List (Option String)) (rv : String) (ev : Bool),
      (∀ e ∈ encs, att e = .unicodeError) →
      tryDecodeLoop att encs rv ev = .ok (rv, ev || !encs.isEmpty) := by
  intro encs
  induction encs with
  | nil => intro rv ev _; simp [tryDecodeLoop]
  | cons p pre ih =>
    intro rv ev hall
    have hp : att p = .unicodeError := hall p (List.mem_cons_self p pre)
    simp only [tryDecodeLoop, hp]
    rw [ih rv true (fun e he => hall e (List.mem_cons_of_mem p he))]
    simp

/-- When the severity name resolves and decoding does not raise, a dispatch
always succeeds. -/
theorem dispatchLine_ok (cfg : RunnerCfg) (w : World) (level : String)
    (hm : cfg.hasMethod level = true)
    (hdec : ∀ l : ByteLine, ∃ p,
      try_decode w.decode w.sysStdoutEncoding l none = Except.ok p)
    (oline : Option ByteLine) (acc : List LogEvent) :
    ∃ acc', dispatchLine cfg w level oline acc = .ok acc' := by
  rcases oline with _ | l
  · exact ⟨acc, rfl⟩
  · cases hE : l.isEmpty
    · obtain ⟨⟨s, warned⟩, hd⟩ := hdec l
      refine ⟨(if warned then acc ++ [("warning", "Valeur non décodée")] else acc)
          ++ [(level, pyStrip s)], ?_⟩
      simp [dispatchLine, hE, hm, hd]
    · exact ⟨acc, by simp [dispatchLine, hE]⟩

/-- Soundness of the loop exit: whenever the loop breaks, it breaks at the
first iteration (at or after the start index) satisfying the source's break
condition, and reports that iteration's poll result. -/
theorem popenLoop_broke_sound (cfg : RunnerCfg) (w : World) (sched : Schedule) :
    ∀ (fuel i : Nat) (acc log : List LogEvent) (n : Nat) (rc : Int),
      popenLoop cfg w sched fuel i acc = .broke n rc log →
      i ≤ n ∧ breakCondB sched n = true ∧ sched.poll n = some rc
        ∧ ∀ m, i ≤ m → m < n → breakCondB sched m = false := by
  intro fuel
  induction fuel with
  | zero =>
    intro i acc log n rc h
    exact absurd h (by simp [popenLoop])
  | succ fuel ih =>
    intro i acc log n rc h
    rw [popenLoop_succ] at h
    split at h
    · exact absurd h (by simp)
    · split at h
      · exact absurd h (by simp)
      · split at h
        · -- `process.poll()` returned a status
          rename_i rc' hp
          split at h
          · -- a line was obtained this pass: the loop continued
            rename_i ht
            obtain ⟨hin, hbc, hpoll, hmin⟩ := ih (i + 1) _ log n rc h
            refine ⟨by omega, hbc, hpoll, ?_⟩
            intro m him hmn
            by_cases hmi : m = i
            · subst hmi
              cases hA : truthyLine (sched.stdoutLine m)
              · cases hB : truthyLine (sched.stderrLine m)
                · rw [hA, hB] at ht; simp at ht
                · simp [breakCondB, hB]
              · simp [breakCondB, hA]
            · exact hmin m (by omega) hmn
          · -- no line and a known status: the `break` fired
            rename_i ht
            simp only [LoopOut.broke.injEq] at h
            obtain ⟨rfl, rfl, rfl⟩ := h
            have hff : truthyLine (sched.stdoutLine i) = false
                ∧ truthyLine (sched.stderrLine i) = false := by
              cases hA : truthyLine (sched.stdoutLine i)
              · cases hB : truthyLine (sched.stderrLine i)
                · exact ⟨rfl, rfl⟩
                · exact absurd (by simp [hA, hB]) ht
              · exact absurd (by simp [hA]) ht
            refine ⟨le_refl _, by simp [breakCondB, hp, hff.1, hff.2], hp, ?_⟩
            intro m him hmn
            omega
        · -- poll returned `None`: the loop continued
          rename_i hp
          obtain ⟨hin, hbc, hpoll, hmin⟩ := ih (i + 1) _ log n rc h
          refine ⟨by omega, hbc, hpoll, ?_⟩
          intro m him hmn
          by_cases hmi : m = i
          · subst hmi
            simp [breakCondB, hp]
          · exact hmin m (by omega) hmn

/-- Completeness of the loop exit: if the break condition first holds at
iteration `n`, and dispatches cannot raise, the loop does break at `n`
(given fuel past `n`). -/
theorem popenLoop_broke_complete (cfg : RunnerCfg) (w : World) (sched : Schedule)
    (hm1 : cfg.hasMethod cfg.stdout_level = true)
    (hm2 : cfg.hasMethod cfg.stderr_level = true)
    (hdec : ∀ l : ByteLine, ∃ p,
      try_decode w.decode w.sysStdoutEncoding l none = Except.ok p) :
    ∀ (fuel i : Nat) (acc : List LogEvent) (n : Nat),
      i ≤ n → n < i + fuel → breakCondB sched n = true →
      (∀ m, i ≤ m → m < n → breakCondB sched m = false) →
      ∃ rc log, popenLoop cfg w sched fuel i acc = .broke n rc log := by
  intro fuel
  induction fuel with
  | zero =>
    intro i acc n hin hfuel _ _
    omega
  | succ fuel ih =>
    intro i acc n hin hfuel hbc hmin
    obtain ⟨acc1, hd1⟩ :=
      dispatchLine_ok cfg w cfg.stdout_level hm1 hdec (sched.stdoutLine i) acc
    obtain ⟨acc2, hd2⟩ :=
      dispatchLine_ok cfg w cfg.stderr_level hm2 hdec (sched.stderrLine i) acc1
    rcases Nat.eq_or_lt_of_le hin with rfl | hlt
    · simp only [breakCondB, Bool.and_eq_true] at hbc
      obtain ⟨⟨h1, hta⟩, htb⟩ := hbc
      obtain ⟨rc, hp⟩ := Option.isSome_iff_exists.mp h1
      simp only [Bool.not_eq_true'] at hta htb
      refine ⟨rc, acc2, ?_⟩
      simp only [popenLoop_succ, hd1, hd2, hp, hta, htb]
      simp
    · have hbci : breakCondB sched i = false := hmin i (le_refl i) hlt
      obtain ⟨rc, log, hrec⟩ :=
        ih (i + 1) acc2 n hlt (by omega) hbc (fun m hm hmn => hmin m (by omega) hmn)
      rcases hp : sched.poll i with _ | rc'
      · refine ⟨rc, log, ?_⟩
        simp only [popenLoop_succ, hd1, hd2, hp]
        exact hrec
      · have ht :
            (truthyLine (sched.stdoutLine i) || truthyLine (sched.stderrLine i)) = true := by
          simp only [breakCondB, hp, Option.isSome_some, Bool.true_and,
            Bool.and_eq_false_iff, Bool.not_eq_false'] at hbci
          rcases hbci with hA | hB
          · simp [hA]
          · simp [hB]
        refine ⟨rc, log, ?_⟩
        simp only [popenLoop_succ, hd1, hd2, hp]
        rw [if_pos ht]
        exact hrec

/-! ### Concrete fixtures for witnesses and counterexamples -/

/-- A sink on which every severity name resolves; default severities
(`'debug'` / `'error'`). -/
def cfgAll : RunnerCfg := mkRunner (fun _ => true) none none

def envEmpty : String → Option String := fun _ => none

/-- A world in which `subprocess.Popen` raises (executable not found). -/
def wFail : World :=
  { environ := envEmpty
    sysStdoutEncoding := some "utf8"
    decode := fun _ _ => .ok ""
    spawn := fun _ => .fail "FileNotFoundError" }

/-- A child that emits one stdout line at iteration 0 and has exited with
status 0 from the start. -/
def sched8 : Schedule :=
  { stdoutLine := fun i => if i = 0 then some [104] else none
    stderrLine := fun _ => none
    poll := fun _ => some 0 }

/-- Codec oracle: every encoding decodes every line to `"  hello\n"`. -/
def decodeW8 : String → ByteLine → DecodeResult := fun _ _ => .ok "  hello\n"

def w8 : World :=
  { environ := envEmpty
    sysStdoutEncoding := some "utf8"
    decode := decodeW8
    spawn := fun _ => .ok sched8 }

/-- Codec oracle distinguishing the preferred encodings: UTF-8 and
Windows-1252 both succeed, with different texts. -/
def decodeW7 : String → ByteLine → DecodeResult := fun e _ =>
  if e = "utf8" then .ok "FROM-UTF8"
  else if e = "cp1252" then .ok "FROM-CP1252"
  else .unicodeError

def w7 : World :=
  { environ := envEmpty
    sysStdoutEncoding := some "utf8"
    decode := decodeW7
    spawn := fun _ => .ok sched8 }

/-- A child that emits one stderr line at iteration 0 and has exited with
status 2 from the start. -/
def schedErr : Schedule :=
  { stdoutLine := fun _ => none
    stderrLine := fun i => if i = 0 then some [101] else none
    poll := fun _ => some 2 }

def wErr : World :=
  { environ := envEmpty
    sysStdoutEncoding := some "utf8"
    decode := fun _ _ => .ok "err"
    spawn := fun _ => .ok schedErr }

/-- Codec oracle where only Windows-1252 succeeds. -/
def decodeW6 : String → ByteLine → DecodeResult := fun e _ =>
  if e = "cp1252" then .ok "W" else .unicodeError

def envPATH : String → Option String := fun k =>
  if k = "PATH" then some "/bin" else none

/-! ### Claim theorems -/

/-- C1: when process creation raises, the failure is caught and logged at
error severity together with the reconstructed command line, and nothing
propagates — but the call evaluates to Python `None` (`retNone`), not
`False`, because the `return False` sits in the `try`'s `else:` clause,
which does not run after an exception.  This contradicts the function's own
docstring and the comment above the `else:` ("Dans tous les cas, on renvoi
False"), so the return value is a slip in the code. -/
theorem C1_spawn_failure :
    popen cfgAll wFail 5 ["nonexistent-binary-xyz"] none none
      = (PopenResult.retNone,
         [("error", "FileNotFoundError"),
          ("error", "La commande était : nonexistent-binary-xyz")])
    ∧ PopenResult.retNone ≠ PopenResult.retFalse :=
  ⟨rfl, by decide⟩

/-- C2: when the polling loop breaks with exit status `rc`, a zero status
logs the success message at the configured stdout severity and `popen`
returns `True`; a non-zero status logs the failure message at the configured
stderr severity and `popen` returns `False`, whatever output was produced
(the log so far is arbitrary). -/
theorem C2_exit_status (cfg : RunnerCfg) (w : World) (fuel : Nat)
    (args : List String) (ov : Option (List (String × String)))
    (oe : Option String) (sched : Schedule) (n : Nat) (rc : Int)
    (log : List LogEvent)
    (hspawn : w.spawn (popenSpawnCall w.environ args ov) = SpawnOutcome.ok sched)
    (hloop : popenLoop cfg w sched fuel 0 [] = LoopOut.broke n rc log)
    (hm1 : cfg.hasMethod cfg.stdout_level = true)
    (hm2 : cfg.hasMethod cfg.stderr_level = true) :
    (rc = 0 → popen cfg w fuel args ov oe
        = (PopenResult.retTrue, log ++ [(cfg.stdout_level, successMsg)]))
    ∧ (rc ≠ 0 → popen cfg w fuel args ov oe
        = (PopenResult.retFalse, log ++ [(cfg.stderr_level, failureMsg)])) := by
  constructor
  · intro h0
    simp [popen, hspawn, hloop, h0, hm1]
  · intro hne
    simp [popen, hspawn, hloop, hne, hm2]

/-- C2 witness: a child that writes one stderr line and exits with status 2
makes `popen` return `False` after logging the failure message at the stderr
severity. -/
theorem C2_witness :
    popen cfgAll wErr 3 ["prog"] none none
      = (PopenResult.retFalse, [("error", "err"), ("error", failureMsg)]) :=
  (C2_exit_status cfgAll wErr 3 ["prog"] none none schedErr 1 2
      [("error", "err")] rfl rfl rfl rfl).2 (by decide)

/-- C3: the polling loop breaks exactly at the first iteration on which the
poll result is known AND no stdout line AND no stderr line was obtained
(`breakCondB`): whenever it reports `broke n`, the condition holds at `n`
and at no earlier iteration (so the loop never stops before the child has
exited nor while a pass still yields a line); conversely, if the condition
first holds at `n` (and dispatches cannot raise), the loop does break
at `n`. -/
theorem C3_loop_termination (cfg : RunnerCfg) (w : World) (sched : Schedule)
    (fuel n : Nat)
    (hm1 : cfg.hasMethod cfg.stdout_level = true)
    (hm2 : cfg.hasMethod cfg.stderr_level = true)
    (hdec : ∀ l : ByteLine, ∃ p,
      try_decode w.decode w.sysStdoutEncoding l none = Except.ok p) :
    (∀ (rc : Int) (log : List LogEvent),
        popenLoop cfg w sched fuel 0 [] = LoopOut.broke n rc log →
        breakCondB sched n = true ∧ sched.poll n = some rc
          ∧ ∀ m, m < n → breakCondB sched m = false)
    ∧ (breakCondB sched n = true → (∀ m, m < n → breakCondB sched m = false) →
        n < fuel →
        ∃ rc log, popenLoop cfg w sched fuel 0 [] = LoopOut.broke n rc log) := by
  constructor
  · intro rc log h
    obtain ⟨_, hbc, hp, hmin⟩ := popenLoop_broke_sound cfg w sched fuel 0 [] log n rc h
    exact ⟨hbc, hp, fun m hm => hmin m (Nat.zero_le m) hm⟩
  · intro hbc hmin hfuel
    exact popenLoop_broke_complete cfg w sched hm1 hm2 hdec fuel 0 [] n
      (Nat.zero_le n) (by omega) hbc (fun m _ hmn => hmin m hmn)

/-- C3 witness: with one stderr line at iteration 0 and the status known
throughout, the break condition first holds at iteration 1 and the loop
indeed breaks there. -/
theorem C3_witness :
    ∃ rc log, popenLoop cfgAll wErr schedErr 3 0 [] = LoopOut.broke 1 rc log :=
  (C3_loop_termination cfgAll wErr schedErr 3 1 rfl rfl
      (fun _ => ⟨("err", false), rfl⟩)).2
    (by decide)
    (fun m hm => by
      have h0 : m = 0 := Nat.lt_one_iff.mp hm
      subst h0
      decide)
    (by decide)

/-- C4: `readline` with `timeout` unset returns immediately the queue head
if available, else the sentinel `none` (`block=False`); with a timeout set
it returns the head, or on an empty queue whatever line arrives before the
deadline, else the sentinel.  In every case the `queue.Empty` exception is
caught inside `readline` (visible in its definition), so the sentinel is the
only failure signal the caller sees. -/
theorem C4_readline_total (q rest : List ByteLine) (l : ByteLine) (t : Nat)
    (arrival : Option ByteLine) :
    readline q none arrival = (q.head?, q.tail)
    ∧ readline [] (some t) arrival = (arrival, [])
    ∧ readline (l :: rest) (some t) arrival = (some l, rest) := by
  refine ⟨?_, ?_, rfl⟩
  · cases q <;> rfl
  · cases arrival <;> rfl

/-- C5 counterexample: the claim would make the body's exit flag equal
"the read returned empty"; at an end-of-stream read (`[]`) the body does
not exit the loop (there is no `break` in `populateQueue`), refuting the
claim. -/
theorem C5_counterexample :
    (populateQueue_body [] []).2 ≠ ([] : ByteLine).isEmpty := by decide

/-- C5 amended: the background task loops reading one line at a time and
enqueues each non-empty line, but it never terminates of its own accord —
an empty read (end-of-stream) is merely skipped and the loop continues
(spinning forever on a closed stream); only daemonisation ends it. -/
theorem C5_never_exits (line : ByteLine) (q : List ByteLine) (steps : Nat) :
    (populateQueue_body line q).2 = false
    ∧ (populateQueue_body line q).1 = (if line.isEmpty then q else q ++ [line])
    ∧ populateQueue_run (fun _ => ([] : ByteLine)) steps = [] := by
  refine ⟨rfl, rfl, ?_⟩
  induction steps with
  | zero => rfl
  | succ k ih =>
    simp only [populateQueue_run, List.range_succ, List.foldl_append] at ih ⊢
    rw [ih]
    rfl

/-- C6: `try_decode` tries the candidate encodings in the fixed order
`[sys.stdout.encoding, utf8, cp1252, latin_1, cp1251, cp1250, cp1256,
euc_kr, euc_jp, GB2312, utf16, utf32]`; the first one that decodes without
error determines the result (no warning); if all fail, the result is the
empty text and the decode-failure warning is logged. -/
theorem C6_try_decode (decode : String → ByteLine → DecodeResult)
    (sysEnc : Option String) (b : ByteLine) :
    encodingList sysEnc = [sysEnc, some "utf8", some "cp1252", some "latin_1",
        some "cp1251", some "cp1250", some "cp1256", some "euc_kr", some "euc_jp",
        some "GB2312", some "utf16", some "utf32"]
    ∧ (∀ (pre post : List (Option String)) (e0 : Option String) (s : String),
        encodingList sysEnc = pre ++ e0 :: post →
        (∀ e ∈ pre, decodeAttempt decode b e = DecodeResult.unicodeError) →
        decodeAttempt decode b e0 = DecodeResult.ok s →
        try_decode decode sysEnc b none = Except.ok (s, false))
    ∧ ((∀ e ∈ encodingList sysEnc,
          decodeAttempt decode b e = DecodeResult.unicodeError) →
        try_decode decode sysEnc b none = Except.ok ("", true)) := by
  refine ⟨rfl, ?_, ?_⟩
  · intro pre post e0 s horder hpre hok
    show tryDecodeLoop (decodeAttempt decode b) (encodingList sysEnc) "" false
        = Except.ok (s, false)
    rw [horder]
    exact tryDecodeLoop_first_ok (decodeAttempt decode b) s pre post e0 "" false hpre hok
  · intro hall
    show tryDecodeLoop (decodeAttempt decode b) (encodingList sysEnc) "" false
        = Except.ok ("", true)
    rw [tryDecodeLoop_all_fail (decodeAttempt decode b) (encodingList sysEnc) "" false hall]
    simp [encodingList]

/-- C6 witness: with a byte line only Windows-1252 can decode, the first two
candidates fail and the cp1252 result wins, with no warning. -/
theorem C6_witness :
    try_decode decodeW6 (some "ascii") [200] none = Except.ok ("W", false) :=
  (C6_try_decode decodeW6 (some "ascii") [200]).2.1
    [some "ascii", some "utf8"]
    [some "latin_1", some "cp1251", some "cp1250", some "cp1256", some "euc_kr",
     some "euc_jp", some "GB2312", some "utf16", some "utf32"]
    (some "cp1252") "W" rfl (by decide) rfl

/-- C7: the `out_encoding` parameter is normalised on line 109 and then
never used — `try_decode` is called without it, so decoding always prefers
`sys.stdout.encoding`.  First conjunct: the whole observable behaviour of
`popen` is independent of the passed encoding.  Second conjunct: at the
failing input (caller passes `cp1252`, and cp1252 would decode the line to
a different text than utf8), the dispatched text is the one decoded with
the calling process's stdout encoding, not the passed one. -/
theorem C7_output_encoding_ignored :
    (∀ (cfg : RunnerCfg) (w : World) (fuel : Nat) (args : List String)
        (ov : Option (List (String × String))) (e1 e2 : Option String),
        popen cfg w fuel args ov e1 = popen cfg w fuel args ov e2)
    ∧ popen cfgAll w7 3 ["prog"] none (some "cp1252")
        = (PopenResult.retTrue, [("debug", "FROM-UTF8"), ("debug", successMsg)]) :=
  ⟨fun _ _ _ _ _ _ _ => rfl, rfl⟩

/-- C8 counterexample: the dispatched text is Python `strip()`, which also
removes leading whitespace: the line decoding to `"  hello\n"` is dispatched
as `"hello"`, whereas trimming only trailing line terminators would give
`"  hello"`. -/
theorem C8_counterexample :
    popen cfgAll w8 3 ["prog"] none none
      = (PopenResult.retTrue, [("debug", "hello"), ("debug", successMsg)])
    ∧ stripTrailingTerminators "  hello\n" = "  hello"
    ∧ ("hello" : String) ≠ "  hello" :=
  ⟨rfl, rfl, by decide⟩

/-- C8 amended: every line obtained from a drainer is dispatched at the
given severity with the decoded text stripped of leading AND trailing
whitespace (Python `str.strip()`), preceded by the decode warning when one
fired; the polling loop passes the configured stdout severity for stdout
lines and the configured stderr severity for stderr lines (see
`popenLoop`). -/
theorem C8_dispatch_strip (cfg : RunnerCfg) (w : World) (level : String)
    (l : ByteLine) (acc : List LogEvent) (s : String) (warned : Bool)
    (hne : l.isEmpty = false) (hm : cfg.hasMethod level = true)
    (hdec : try_decode w.decode w.sysStdoutEncoding l none = Except.ok (s, warned)) :
    dispatchLine cfg w level (some l) acc
      = Except.ok ((if warned then acc ++ [("warning", "Valeur non décodée")] else acc)
          ++ [(level, pyStrip s)]) := by
  simp [dispatchLine, hne, hm, hdec]

/-- C8 witness: the stdout line decoding to `"  hello\n"` is dispatched at
severity `debug` as `"hello"`. -/
theorem C8_witness :
    dispatchLine cfgAll w8 "debug" (some [104]) [] = Except.ok [("debug", "hello")] :=
  C8_dispatch_strip cfgAll w8 "debug" [104] [] "  hello\n" false rfl rfl rfl

/-- C9: the spawn call `popen` builds passes the argument vector unchanged,
redirects stdin, stdout and stderr through pipes, disables the shell, and
uses the caller's environment with every overridden variable set to its
override value and every other variable passed through. -/
theorem C9_spawn_call (environ : String → Option String) (args : List String)
    (ov : Option (List (String × String))) :
    (popenSpawnCall environ args ov).shell = false
    ∧ (popenSpawnCall environ args ov).stdin = Redirect.pipe
    ∧ (popenSpawnCall environ args ov).stdout = Redirect.pipe
    ∧ (popenSpawnCall environ args ov).stderr = Redirect.pipe
    ∧ (popenSpawnCall environ args ov).args = args
    ∧ (∀ k v, (ov.getD []).lookup k = some v →
        (popenSpawnCall environ args ov).env k = some v)
    ∧ (∀ k, (ov.getD []).lookup k = none →
        (popenSpawnCall environ args ov).env k = environ k) := by
  refine ⟨rfl, rfl, rfl, rfl, rfl, ?_, ?_⟩
  · intro k v h
    simp [popenSpawnCall, mergedEnv, h]
  · intro k h
    simp [popenSpawnCall, mergedEnv, h]

/-- C9 witness: overriding `X=1` on an environment holding only `PATH`
yields an environment with `X` set to the override and `PATH` passed
through. -/
theorem C9_witness :
    (popenSpawnCall envPATH ["ls"] (some [("X", "1")])).env "X" = some "1"
    ∧ (popenSpawnCall envPATH ["ls"] (some [("X", "1")])).env "PATH" = some "/bin" := by
  constructor
  · exact (C9_spawn_call envPATH ["ls"] (some [("X", "1")])).2.2.2.2.2.1 "X" "1"
      (by decide)
  · have h := (C9_spawn_call envPATH ["ls"] (some [("X", "1")])).2.2.2.2.2.2 "PATH"
      (by decide)
    rw [h]
    rfl

/-- C10: every exception between process creation and loop exit is caught by
the single handler, which logs the exception then the command line at error
severity, and `popen` evaluates to Python `None` (`retNone`, distinct from
`False`): (1) spawn failure; (2) any exception escaping the loop body;
(3) an unresolvable severity name raises `AttributeError` out of a
dispatch; (4) with `sys.stdout.encoding` equal to `None`, `try_decode`
raises `TypeError` (not a `UnicodeDecodeError`) on its first candidate. -/
theorem C10_exception_handler (cfg : RunnerCfg) (w : World) (fuel : Nat)
    (args : List String) (ov : Option (List (String × String)))
    (oe : Option String) :
    (∀ msg, w.spawn (popenSpawnCall w.environ args ov) = SpawnOutcome.fail msg →
        popen cfg w fuel args ov oe
          = (PopenResult.retNone, [("error", msg), ("error", cmdLineMsg args)]))
    ∧ (∀ sched msg log,
        w.spawn (popenSpawnCall w.environ args ov) = SpawnOutcome.ok sched →
        popenLoop cfg w sched fuel 0 [] = LoopOut.exc msg log →
        popen cfg w fuel args ov oe
          = (PopenResult.retNone, log ++ [("error", msg), ("error", cmdLineMsg args)]))
    ∧ (∀ (level : String) (l : ByteLine) (acc : List LogEvent),
        cfg.hasMethod level = false → l.isEmpty = false →
        dispatchLine cfg w level (some l) acc
          = Except.error ("AttributeError: " ++ level, acc))
    ∧ (w.sysStdoutEncoding = none → ∀ b : ByteLine,
        try_decode w.decode w.sysStdoutEncoding b none
          = Except.error "TypeError: decode(None)") := by
  refine ⟨?_, ?_, ?_, ?_⟩
  · intro msg h
    simp [popen, h]
  · intro sched msg log hs hl
    simp [popen, hs, hl]
  · intro level l acc hm hne
    simp [dispatchLine, hm, hne]
  · intro h b
    rw [h]
    simp [try_decode, encodingList, tryDecodeLoop, decodeAttempt]

/-- C10 witness: a failing spawn is caught, both error log lines are
emitted, and the call evaluates to `None`. -/
theorem C10_witness :
    popen cfgAll wFail 5 ["prog"] none none
      = (PopenResult.retNone,
         [("error", "FileNotFoundError"), ("error", cmdLineMsg ["prog"])]) :=
  (C10_exception_handler cfgAll wFail 5 ["prog"] none none).1 "FileNotFoundError" rfl

end BazSubprocess
